import Mathlib

/-!
Shallow embedding of the MarkdownAsset editor plugin.

Strings (`FString`, `FText`) are modelled as `List Char` (`Str`); `FText` is a
wrapper of a string in the engine and is modelled as the same type, with
`FText::GetEmpty()` the empty string.  Host file-system services
(`FFileHelper::LoadFileToString`, `FPaths::FileExists`,
`IFileManager::IsReadOnly`, `FPaths::DirectoryExists`,
`IFileManager::ConvertToAbsolutePathForExternalAppForRead`, and the success
of `FFileHelper::SaveStringToFile`) are an abstract environment `FS`.
Side effects of the editor callbacks (file writes attempted, user
notifications shown, warning log lines) are recorded in an explicit
`Effects` record.
-/

/-- Strings of the embedding: `FString` / `FText` as a list of characters. -/
abbrev Str := List Char

/-- `lhs` begins the string `s` (helper for substring search). -/
def leadsWith : Str → Str → Bool
  | [], _ => true
  | _ :: _, [] => false
  | a :: as, b :: bs => a == b && leadsWith as bs

/-- `FString::Contains(pat)`: `pat` occurs as a contiguous substring of `s`.
(`Contains` is case-insensitive in the engine; the only pattern used by this
code is `"://"`, which has no letters, so exact matching is faithful.) -/
def containsSub (s pat : Str) : Bool :=
  match s with
  | [] => pat.isEmpty
  | _ :: rest => leadsWith pat s || containsSub rest pat

/-- `FPaths::GetPath`: everything before the last `/` or `\` of the path,
or the empty string when the path has no separator. -/
def GetPath (s : Str) : Str :=
  ((s.reverse.dropWhile (fun c => !(c == '/' || c == '\\'))).drop 1).reverse

/-- `FString::Right(1)`: the last character of the string, as a string. -/
def rightOne (s : Str) : Str := s.drop (s.length - 1)

/-- `FString::Left(n)`. -/
def leftN (s : Str) (n : Nat) : Str := s.take n

/-- Everything of `s` up to and including its last `/`; empty when `s` has
no `/`.  This is the `FindLastChar('/', Pos); Left(Pos + 1)` idiom of
`ComputeBaseHref` for URLs. -/
def upToLastSlash (s : Str) : Str :=
  (s.reverse.dropWhile (fun c => !(c == '/'))).reverse

/-- One character of `ReplaceInline(TEXT("\\"), TEXT("/"))`. -/
def toFwd (c : Char) : Char := if c == '\\' then '/' else c

/-- Abstract host environment: the file system and path services the module
calls into.  Each field models one host API the code under `src/` invokes. -/
structure FS where
  /-- `FFileHelper::LoadFileToString`: `some` contents on success. -/
  readFile : Str → Option Str
  /-- Success of `FFileHelper::SaveStringToFile` at this path. -/
  writeOk : Str → Bool
  /-- `FPaths::FileExists`. -/
  fileExists : Str → Bool
  /-- `IFileManager::IsReadOnly` (queried on files and on directories). -/
  isReadOnly : Str → Bool
  /-- `FPaths::DirectoryExists`. -/
  dirExists : Str → Bool
  /-- `IFileManager::ConvertToAbsolutePathForExternalAppForRead`. -/
  toAbsolute : Str → Str

/-- `FMarkdownAssetEditorModule::ReadTextFromFile`: load the file to a string
and wrap it as text; on failure return `FText::GetEmpty()`. -/
def ReadTextFromFile (fs : FS) (filePath : Str) : Str :=
  match fs.readFile filePath with
  | some text => text
  | none => []

/-- `FMarkdownAssetEditorModule::WriteTextToFile`: save the string to the
file, returning the host's success flag. -/
def WriteTextToFile (fs : FS) (filePath : Str) (_content : Str) : Bool :=
  fs.writeOk filePath

/-- `FMarkdownAssetEditorModule::IsFileReadOnly`. -/
def IsFileReadOnly (fs : FS) (filePath : Str) : Bool :=
  fs.isReadOnly filePath

/-- `FMarkdownAssetEditorModule::CanWriteToFile`. -/
def CanWriteToFile (fs : FS) (filePath : Str) : Bool :=
  if filePath.isEmpty then false
  else if fs.fileExists filePath then !(IsFileReadOnly fs filePath)
  else
    let directory := GetPath filePath
    if directory.isEmpty then false
    else fs.dirExists directory && !(fs.isReadOnly directory)

/-- State of the open `UMarkdownAsset`: its `Text` field, whether it is a
`UMarkdownLinkAsset` (the `Cast<UMarkdownLinkAsset>` succeeds), the link
asset's `URL` field (meaningful only when `isLink`), and whether
`MarkPackageDirty` has marked its package dirty. -/
structure AssetState where
  text : Str
  isLink : Bool
  url : Str
  dirty : Bool
deriving DecidableEq, Repr

/-- The `UMarkdownBinding` object exposed to the browser script context:
holds the current text. -/
structure Binding where
  text : Str
deriving DecidableEq, Repr

/-- Side effects of one editor callback: the `WriteTextToFile` calls
attempted (path and content), the number of failure notifications added via
`FSlateNotificationManager`, and the number of warning log lines. -/
structure Effects where
  writes : List (Str × Str)
  notifications : Nat
  warnings : Nat
deriving DecidableEq, Repr

/-- No side effects. -/
def noEffects : Effects := { writes := [], notifications := 0, warnings := 0 }

/-- `SMarkdownAssetEditor::IsCurrentFileALocalFile`: the open asset is a
link asset with a non-empty `URL` not containing `"://"`. -/
def IsCurrentFileALocalFile (a : AssetState) : Bool :=
  if a.isLink && !a.url.isEmpty then !(containsSub a.url "://".data)
  else false

/-- The local-path arm of `ComputeBaseHref`: convert the directory to an
absolute path, normalize backslashes to forward slashes, ensure a trailing
slash, and prepend `file:///`. -/
def dirToFileHref (fs : FS) (dir : Str) : Str :=
  let abs := (fs.toAbsolute dir).map toFwd
  let abs2 := if rightOne abs == "/".data then abs else abs ++ "/".data
  "file:///".data ++ abs2

/-- `SMarkdownAssetEditor::ComputeBaseHref`. -/
def ComputeBaseHref (fs : FS) (urlString : Str) : Str :=
  if containsSub urlString "://".data then
    upToLastSlash urlString
  else
    let baseDir := GetPath urlString
    if baseDir.isEmpty then []
    else dirToFileHref fs baseDir

/-- Modelled from the spec: `UMarkdownBinding::SetText` (the binding class is
declared outside the sources at hand).  Per the spec, the binding exposes
get/set text to the script context and "text diffing is simple equality
comparison": setting a text equal to the stored one is a no-op, otherwise the
text is stored and the `OnSetText` delegate is broadcast.  Returns the
updated binding and whether `OnSetText` fired. -/
def Binding.SetText (b : Binding) (t : Str) : Binding × Bool :=
  if t == b.text then (b, false) else ({ text := t }, true)

/-- The `OnSetText` lambda bound in `SMarkdownAssetEditor::Construct`:
store the edited binding text into the asset and mark its package dirty;
when the asset is a link asset pointing at a local file, write the text back
to disk if `CanWriteToFile` allows it, otherwise (or when the write fails)
log a warning and show one failure notification. -/
def OnSetTextLambda (fs : FS) (a : AssetState) (b : Binding) :
    AssetState × Effects :=
  let editedText := b.text
  let a2 : AssetState := { a with dirty := true, text := editedText }
  if a2.isLink && IsCurrentFileALocalFile a2 then
    if CanWriteToFile fs a2.url then
      if WriteTextToFile fs a2.url editedText then
        (a2, { writes := [(a2.url, editedText)], notifications := 0,
               warnings := 0 })
      else
        (a2, { writes := [(a2.url, editedText)], notifications := 1,
               warnings := 1 })
    else
      (a2, { writes := [], notifications := 1, warnings := 1 })
  else (a2, noEffects)

/-- One edit committed through the binding from the browser script context:
`SetText` on the binding, and when its `OnSetText` delegate fires, the
bound lambda runs. -/
def commitEdit (fs : FS) (a : AssetState) (b : Binding) (t : Str) :
    AssetState × Binding × Effects :=
  let sb := Binding.SetText b t
  if sb.2 then
    let he := OnSetTextLambda fs a sb.1
    (he.1, sb.1, he.2)
  else (a, sb.1, noEffects)

/-- Result of `SMarkdownAssetEditor::OpenMarkdownAssetLink`: the updated
asset and binding, the side effects of the re-entrant `OnSetText` broadcast
(if any), and whether the base-href script was executed immediately. -/
structure OpenResult where
  asset : AssetState
  binding : Binding
  effects : Effects
  injectedNow : Bool
deriving DecidableEq, Repr

/-- `SMarkdownAssetEditor::OpenMarkdownAssetLink`: store the URL in the
asset, mark its package dirty, read the file's text into the asset and the
binding, and, when the browser template has already loaded
(`bBrowserTemplateLoaded`), the browser view is valid and the computed base
href is non-empty, execute the base-href script immediately. -/
def OpenMarkdownAssetLink (fs : FS) (browserValid templLoaded : Bool)
    (a : AssetState) (b : Binding) (url : Str) : OpenResult :=
  let a1 := { a with url := url, dirty := true }
  let originalText := ReadTextFromFile fs url
  let a2 := { a1 with text := originalText }
  let sb := Binding.SetText b originalText
  let he := if sb.2 then OnSetTextLambda fs a2 sb.1 else (a2, noEffects)
  let inj := templLoaded &&
    (browserValid && !(ComputeBaseHref fs url).isEmpty)
  { asset := he.1, binding := sb.1, effects := he.2, injectedNow := inj }

/-- `SMarkdownAssetEditor::HandleBrowserLoadCompleted`: set
`bBrowserTemplateLoaded` to true; when a link asset is open, the browser
view valid and the base href of its URL non-empty, execute the base-href
script.  Returns the new flag value and whether the script was executed. -/
def HandleBrowserLoadCompleted (fs : FS) (browserValid : Bool)
    (a : AssetState) : Bool × Bool :=
  if !a.isLink then (true, false)
  else (true, browserValid && !(ComputeBaseHref fs a.url).isEmpty)

/-- `RF_Transactional` object flag (bit 3 of `EObjectFlags`). -/
def RF_Transactional : Nat := 8

/-- Object returned by `UMarkdownLinkAssetFactoryNew::FactoryCreateNew`:
a fresh `UMarkdownLinkAsset` with default fields, its object flags, and the
`URL` field possibly initialized from the factory. -/
structure LinkAssetNew where
  text : Str
  url : Str
  flags : Nat
deriving DecidableEq, Repr

/-- `UMarkdownLinkAssetFactoryNew::FactoryCreateNew`: create a new
`UMarkdownLinkAsset` with the requested flags plus `RF_Transactional`
(fields default-initialized), then copy the factory's `URL` property into
it when that property is non-empty. -/
def FactoryCreateNew (factoryURL : Str) (requestedFlags : Nat) :
    LinkAssetNew :=
  let linkAsset : LinkAssetNew :=
    { text := [], url := [], flags := requestedFlags ||| RF_Transactional }
  if factoryURL.isEmpty then linkAsset
  else { linkAsset with url := factoryURL }

/-! Concrete environments and states used to instantiate the theorems. -/

/-- An environment where no file is readable and no path exists. -/
def fsMissing : FS :=
  { readFile := fun _ => none, writeOk := fun _ => false,
    fileExists := fun _ => false, isReadOnly := fun _ => false,
    dirExists := fun _ => false, toAbsolute := fun s => s }

/-- An environment where every file exists, reads as `"hello"`, and is
read-only. -/
def fsReadOnly : FS :=
  { readFile := fun _ => some "hello".data, writeOk := fun _ => true,
    fileExists := fun _ => true, isReadOnly := fun _ => true,
    dirExists := fun _ => true, toAbsolute := fun s => s }

/-- An environment where every file exists, reads as `"hello"`, is
writable, and absolute paths live under a Windows-style root. -/
def fsWritable : FS :=
  { readFile := fun _ => some "hello".data, writeOk := fun _ => true,
    fileExists := fun _ => true, isReadOnly := fun _ => false,
    dirExists := fun _ => true,
    toAbsolute := fun s => "C:\\proj\\".data ++ s }

/-- A freshly opened link asset with empty text and URL, clean package. -/
def linkAsset0 : AssetState :=
  { text := [], isLink := true, url := [], dirty := false }

/-- A link asset pointing at the local file `notes.md`. -/
def notesAsset : AssetState :=
  { text := "hello".data, isLink := true, url := "notes.md".data,
    dirty := false }

/-- A plain (non-link) markdown asset. -/
def plainAsset : AssetState :=
  { text := "hello".data, isLink := false, url := [], dirty := false }

/-- A binding holding the empty text. -/
def binding0 : Binding := { text := [] }

/-- A binding holding `"hello"`. -/
def bindingHello : Binding := { text := "hello".data }

/-- A binding holding `"edited"`. -/
def bindingEdited : Binding := { text := "edited".data }

/-! Helper lemmas shared by the claim theorems. -/

/-- The `OnSetText` lambda always stores the binding's text in the asset and
marks the package dirty, leaving the other fields alone. -/
theorem OnSetTextLambda_fst (fs : FS) (a : AssetState) (b : Binding) :
    (OnSetTextLambda fs a b).1 = { a with dirty := true, text := b.text } := by
  simp only [OnSetTextLambda]
  split_ifs <;> rfl

/-- `IsCurrentFileALocalFile` unfolded to its three conditions. -/
theorem isLocal_iff (a : AssetState) :
    IsCurrentFileALocalFile a = true ↔
      a.isLink = true ∧ a.url ≠ [] ∧ containsSub a.url "://".data = false := by
  unfold IsCurrentFileALocalFile
  cases hl : a.isLink <;>
    cases hu : a.url <;>
      simp_all [List.isEmpty, Bool.not_eq_true']

/-- `IsCurrentFileALocalFile` as a single boolean expression over the
`isLink` and `url` fields. -/
theorem isLocal_def (a : AssetState) :
    IsCurrentFileALocalFile a =
      (a.isLink && !a.url.isEmpty && !containsSub a.url "://".data) := by
  unfold IsCurrentFileALocalFile
  cases h : (a.isLink && !a.url.isEmpty) <;> simp [h]

/-- `Binding.SetText` always leaves the requested text in the binding. -/
theorem SetText_fst_text (b : Binding) (t : Str) :
    (Binding.SetText b t).1.text = t := by
  unfold Binding.SetText
  split
  · next h => exact (eq_of_beq h).symm
  · rfl

/-- `OnSetText` of the binding fires exactly when the new text differs. -/
theorem SetText_snd (b : Binding) (t : Str) :
    (Binding.SetText b t).2 = !(t == b.text) := by
  unfold Binding.SetText
  split
  · next h => rw [h]; rfl
  · next h => rw [eq_false_of_ne_true h]; rfl

/-- When the open asset is not a local link file, the `OnSetText` lambda
has no file-system effects. -/
theorem OnSetTextLambda_snd_nonlocal (fs : FS) (a : AssetState) (b : Binding)
    (hloc : IsCurrentFileALocalFile a = false) :
    (OnSetTextLambda fs a b).2 = noEffects := by
  rw [isLocal_def] at hloc
  simp [OnSetTextLambda, isLocal_def, hloc]

/-- When the write is refused by `CanWriteToFile`, the `OnSetText` lambda
attempts no write and surfaces one notification and one warning. -/
theorem OnSetTextLambda_snd_refused (fs : FS) (a : AssetState) (b : Binding)
    (hloc : IsCurrentFileALocalFile a = true)
    (hcw : CanWriteToFile fs a.url = false) :
    (OnSetTextLambda fs a b).2 =
      { writes := [], notifications := 1, warnings := 1 } := by
  obtain ⟨hlink, hurl, hns⟩ := (isLocal_iff a).mp hloc
  have hne : a.url.isEmpty = false := by
    cases h : a.url
    · exact absurd h hurl
    · rfl
  simp [OnSetTextLambda, isLocal_def, hlink, hne, hns, hcw]

/-- When `CanWriteToFile` allows it, the `OnSetText` lambda attempts exactly
one write of the edited text, notifying once exactly when the write fails. -/
theorem OnSetTextLambda_snd_write (fs : FS) (a : AssetState) (b : Binding)
    (hloc : IsCurrentFileALocalFile a = true)
    (hcw : CanWriteToFile fs a.url = true) :
    (OnSetTextLambda fs a b).2 =
      if fs.writeOk a.url then
        { writes := [(a.url, b.text)], notifications := 0, warnings := 0 }
      else
        { writes := [(a.url, b.text)], notifications := 1, warnings := 1 } := by
  obtain ⟨hlink, hurl, hns⟩ := (isLocal_iff a).mp hloc
  have hne : a.url.isEmpty = false := by
    cases h : a.url
    · exact absurd h hurl
    · rfl
  cases hw : fs.writeOk a.url <;>
    simp [OnSetTextLambda, WriteTextToFile, isLocal_def, hlink, hne, hns,
      hcw, hw]

/-! Claim theorems. -/

/-- C1 counterexample: opening a link asset with a path that names no
readable file (the environment has no readable files at all) nevertheless
marks the asset's package dirty — `OpenMarkdownAssetLink` calls
`MarkPackageDirty` unconditionally — refuting the claim that the package is
not marked dirty. -/
theorem c1_counterexample_open_marks_dirty :
    fsMissing.readFile "missing.md".data = none ∧
    linkAsset0.dirty = false ∧
    (OpenMarkdownAssetLink fsMissing true false linkAsset0 binding0
        "missing.md".data).asset.dirty = true := by
  decide

/-- C1 (amended): for every link asset opened with a path whose file load
fails, `OpenMarkdownAssetLink` leaves the asset's `Text` field equal to the
empty text, and it marks the asset's package dirty. -/
theorem c1_open_nonexistent_empty_text_marks_dirty (fs : FS)
    (bv tl : Bool) (a : AssetState) (b : Binding) (url : Str)
    (h : fs.readFile url = none) :
    (OpenMarkdownAssetLink fs bv tl a b url).asset.text = [] ∧
    (OpenMarkdownAssetLink fs bv tl a b url).asset.dirty = true := by
  have hread : ReadTextFromFile fs url = [] := by
    unfold ReadTextFromFile
    rw [h]
  simp only [OpenMarkdownAssetLink, hread]
  constructor
  · split
    · rw [OnSetTextLambda_fst]
      exact SetText_fst_text b []
    · rfl
  · split
    · rw [OnSetTextLambda_fst]
    · rfl

/-- C1 witness: the amended theorem at a concrete unreadable path. -/
theorem c1_witness :
    fsMissing.readFile "missing.md".data = none ∧
    ((OpenMarkdownAssetLink fsMissing true false linkAsset0 binding0
        "missing.md".data).asset.text = [] ∧
     (OpenMarkdownAssetLink fsMissing true false linkAsset0 binding0
        "missing.md".data).asset.dirty = true) :=
  ⟨by decide,
   c1_open_nonexistent_empty_text_marks_dirty fsMissing true false
     linkAsset0 binding0 "missing.md".data (by decide)⟩

/-- C2: for every edit committed through the binding on a link asset whose
URL is a local path to an existing read-only file, `CanWriteToFile` returns
false, no write is attempted, and exactly one failure notification is
shown. -/
theorem c2_readonly_write_refused (fs : FS) (a : AssetState) (b : Binding)
    (hloc : IsCurrentFileALocalFile a = true)
    (hex : fs.fileExists a.url = true)
    (hro : fs.isReadOnly a.url = true) :
    CanWriteToFile fs a.url = false ∧
    (OnSetTextLambda fs a b).2.writes = [] ∧
    (OnSetTextLambda fs a b).2.notifications = 1 := by
  obtain ⟨hlink, hurl, hns⟩ := (isLocal_iff a).mp hloc
  have hne : a.url.isEmpty = false := by
    cases h : a.url
    · exact absurd h hurl
    · rfl
  have hcw : CanWriteToFile fs a.url = false := by
    simp [CanWriteToFile, IsFileReadOnly, hne, hex, hro]
  refine ⟨hcw, ?_, ?_⟩ <;>
    rw [OnSetTextLambda_snd_refused fs a b hloc hcw]

/-- C2 witness: the theorem at a concrete read-only local file. -/
theorem c2_witness :
    IsCurrentFileALocalFile notesAsset = true ∧
    (CanWriteToFile fsReadOnly notesAsset.url = false ∧
     (OnSetTextLambda fsReadOnly notesAsset bindingEdited).2.writes = [] ∧
     (OnSetTextLambda fsReadOnly notesAsset
        bindingEdited).2.notifications = 1) :=
  ⟨by decide,
   c2_readonly_write_refused fsReadOnly notesAsset bindingEdited
     (by decide) (by decide) (by decide)⟩

/-- C3: an edit committed through the binding whose text equals the text
already stored in the asset (the binding mirroring the asset's text) leaves
the asset unchanged — in particular not marked dirty — and triggers no file
write.  The binding's equality diff makes the commit a no-op. -/
theorem c3_unchanged_edit_is_noop (fs : FS) (a : AssetState) (b : Binding)
    (t : Str) (hsync : b.text = a.text) (heq : t = a.text) :
    commitEdit fs a b t = (a, b, noEffects) := by
  have hbeq : (t == b.text) = true := by
    rw [heq, hsync]
    exact beq_self_eq_true _
  simp [commitEdit, Binding.SetText, hbeq]

/-- C3 witness: the theorem at a concrete synchronized asset and binding. -/
theorem c3_witness :
    commitEdit fsReadOnly notesAsset bindingHello "hello".data =
      (notesAsset, bindingHello, noEffects) :=
  c3_unchanged_edit_is_noop fsReadOnly notesAsset bindingHello
    "hello".data rfl rfl

/-- C4: `ReadTextFromFile` yields the file's contents on a successful load
and the empty text on failure, with no error value; and when the disk write
of an edit is refused or fails, the asset's text keeps the edited value (no
rollback) while the failure surfaces as exactly one notification and one
warning log line. -/
theorem c4_silent_read_no_rollback (fs : FS) (p : Str) (a : AssetState)
    (b : Binding)
    (hloc : IsCurrentFileALocalFile a = true)
    (hfail : CanWriteToFile fs a.url = false ∨ fs.writeOk a.url = false) :
    ReadTextFromFile fs p = (fs.readFile p).getD [] ∧
    (OnSetTextLambda fs a b).1.text = b.text ∧
    (OnSetTextLambda fs a b).2.notifications = 1 ∧
    (OnSetTextLambda fs a b).2.warnings = 1 := by
  have heff : (OnSetTextLambda fs a b).2.notifications = 1 ∧
      (OnSetTextLambda fs a b).2.warnings = 1 := by
    cases hcw : CanWriteToFile fs a.url
    · rw [OnSetTextLambda_snd_refused fs a b hloc hcw]
      exact ⟨rfl, rfl⟩
    · have hw : fs.writeOk a.url = false := by
        rcases hfail with h | h
        · rw [h] at hcw
          exact absurd hcw (by simp)
        · exact h
      rw [OnSetTextLambda_snd_write fs a b hloc hcw, hw]
      exact ⟨rfl, rfl⟩
  refine ⟨?_, ?_, heff.1, heff.2⟩
  · unfold ReadTextFromFile
    cases fs.readFile p <;> rfl
  · rw [OnSetTextLambda_fst]

/-- C4 witness: the theorem at a concrete read-only target. -/
theorem c4_witness :
    ReadTextFromFile fsReadOnly "notes.md".data =
      ((fsReadOnly.readFile "notes.md".data).getD []) ∧
    (OnSetTextLambda fsReadOnly notesAsset bindingEdited).1.text =
      bindingEdited.text ∧
    (OnSetTextLambda fsReadOnly notesAsset
        bindingEdited).2.notifications = 1 ∧
    (OnSetTextLambda fsReadOnly notesAsset bindingEdited).2.warnings = 1 :=
  c4_silent_read_no_rollback fsReadOnly "notes.md".data notesAsset
    bindingEdited (by decide) (Or.inl (by decide))

/-- `toFwd` never produces a backslash. -/
theorem toFwd_ne_backslash (c : Char) : toFwd c ≠ '\\' := by
  unfold toFwd
  split
  · decide
  · next h =>
    intro hc
    subst hc
    simp at h

/-- The local-path base href always ends in a forward slash. -/
theorem dirToFileHref_getLast (fs : FS) (dir : Str) :
    (dirToFileHref fs dir).getLast? = some '/' := by
  simp only [dirToFileHref]
  split
  · next h =>
    have h2 : ((fs.toAbsolute dir).map toFwd).drop
        (((fs.toAbsolute dir).map toFwd).length - 1) = ['/'] := by
      simpa [rightOne] using eq_of_beq h
    conv_lhs =>
      rw [← List.take_append_drop (((fs.toAbsolute dir).map toFwd).length - 1)
        ((fs.toAbsolute dir).map toFwd), h2]
    rw [← List.append_assoc, List.getLast?_concat]
  · rw [← List.append_assoc, List.getLast?_concat]

/-- The local-path base href contains no backslash. -/
theorem dirToFileHref_no_backslash (fs : FS) (dir : Str) :
    '\\' ∉ dirToFileHref fs dir := by
  simp only [dirToFileHref]
  split <;>
  · intro hmem
    rcases List.mem_append.mp hmem with h | h
    · exact absurd h (by decide)
    · first
      | (obtain ⟨c, -, hc⟩ := List.mem_map.mp h
         exact toFwd_ne_backslash c hc)
      | (rcases List.mem_append.mp h with h2 | h2
         · obtain ⟨c, -, hc⟩ := List.mem_map.mp h2
           exact toFwd_ne_backslash c hc
         · exact absurd h2 (by decide))

/-- C5: for every local path (no `"://"`) with a non-empty directory part,
`ComputeBaseHref` is the `file:///` URL of the absolute containing
directory, normalized to forward slashes (no backslash remains) and ending
in `/`. -/
theorem c5_base_href_of_local_path (fs : FS) (url : Str)
    (hlocal : containsSub url "://".data = false)
    (hdir : GetPath url ≠ []) :
    ComputeBaseHref fs url = dirToFileHref fs (GetPath url) ∧
    (ComputeBaseHref fs url).getLast? = some '/' ∧
    '\\' ∉ ComputeBaseHref fs url := by
  have hbe : (GetPath url).isEmpty = false := by
    cases h : GetPath url
    · exact absurd h hdir
    · rfl
  have h1 : ComputeBaseHref fs url = dirToFileHref fs (GetPath url) := by
    simp [ComputeBaseHref, hlocal, hbe]
  refine ⟨h1, ?_, ?_⟩ <;> rw [h1]
  · exact dirToFileHref_getLast fs (GetPath url)
  · exact dirToFileHref_no_backslash fs (GetPath url)

/-- C5 witness: the theorem at a concrete relative path whose absolute
directory uses Windows-style backslashes. -/
theorem c5_witness :
    containsSub "docs/readme.md".data "://".data = false ∧
    (ComputeBaseHref fsWritable "docs/readme.md".data =
       dirToFileHref fsWritable (GetPath "docs/readme.md".data) ∧
     (ComputeBaseHref fsWritable "docs/readme.md".data).getLast? =
       some '/' ∧
     '\\' ∉ ComputeBaseHref fsWritable "docs/readme.md".data) :=
  ⟨by decide,
   c5_base_href_of_local_path fsWritable "docs/readme.md".data
     (by decide) (by decide)⟩

/-- C6 counterexample: with the browser-template flag already true (and a
valid browser), opening a link asset whose URL has no directory part
injects nothing — the computed base href is empty — refuting "injects
immediately if and only if the flag is already true". -/
theorem c6_counterexample_flag_set_no_injection :
    ComputeBaseHref fsMissing "readme.md".data = [] ∧
    (OpenMarkdownAssetLink fsMissing true true linkAsset0 binding0
        "readme.md".data).injectedNow = false := by
  decide

/-- C6 (amended): coordination is through the single boolean flag:
`OpenMarkdownAssetLink` injects immediately iff the flag is true, the
browser view is valid and the computed base href is non-empty (so with the
flag false it never injects), while `HandleBrowserLoadCompleted` sets the
flag to true and injects exactly when the currently open asset is a link
asset with a valid browser and non-empty base href; no queue of pending
injections exists — the deferred injection depends only on the state at
load-complete time. -/
theorem c6_flag_gates_injection (fs : FS) (bv tl : Bool) (a : AssetState)
    (b : Binding) (url : Str) :
    (OpenMarkdownAssetLink fs bv tl a b url).injectedNow =
      (tl && (bv && !(ComputeBaseHref fs url).isEmpty)) ∧
    (HandleBrowserLoadCompleted fs bv a).1 = true ∧
    (HandleBrowserLoadCompleted fs bv a).2 =
      (a.isLink && (bv && !(ComputeBaseHref fs a.url).isEmpty)) := by
  refine ⟨rfl, ?_, ?_⟩ <;>
  · unfold HandleBrowserLoadCompleted
    cases a.isLink <;> simp

/-- C7: `OpenMarkdownAssetLink` stores the URL in the asset and refreshes
the text mirror — afterwards the asset's text and the binding's text both
equal the content read from the file at that URL — and an edit committed
through a binding synchronized with the asset leaves the edited value in
the asset's text. -/
theorem c7_open_refreshes_text_mirror (fs : FS) (bv tl : Bool)
    (a : AssetState) (b : Binding) (url : Str) (a2 : AssetState)
    (b2 : Binding) (t : Str) (hsync : a2.text = b2.text) :
    (OpenMarkdownAssetLink fs bv tl a b url).asset.url = url ∧
    (OpenMarkdownAssetLink fs bv tl a b url).asset.text =
      ReadTextFromFile fs url ∧
    (OpenMarkdownAssetLink fs bv tl a b url).binding.text =
      ReadTextFromFile fs url ∧
    (commitEdit fs a2 b2 t).1.text = t := by
  refine ⟨?_, ?_, ?_, ?_⟩
  · simp only [OpenMarkdownAssetLink]
    split
    · rw [OnSetTextLambda_fst]
    · rfl
  · simp only [OpenMarkdownAssetLink]
    split
    · rw [OnSetTextLambda_fst]
      exact SetText_fst_text b (ReadTextFromFile fs url)
    · rfl
  · exact SetText_fst_text b (ReadTextFromFile fs url)
  · by_cases hbe : (t == b2.text) = true
    · simp only [commitEdit, Binding.SetText, hbe, if_true, Bool.false_eq_true,
        if_false]
      exact hsync.trans (eq_of_beq hbe).symm
    · have hbf : (t == b2.text) = false := eq_false_of_ne_true hbe
      simp only [commitEdit, Binding.SetText, hbf, Bool.false_eq_true,
        if_false, if_true]
      rw [OnSetTextLambda_fst]

/-- C7 witness: the theorem at a concrete link asset, readable file and
edit. -/
theorem c7_witness :
    (OpenMarkdownAssetLink fsReadOnly true true notesAsset bindingHello
        "notes.md".data).asset.url = "notes.md".data ∧
    (OpenMarkdownAssetLink fsReadOnly true true notesAsset bindingHello
        "notes.md".data).asset.text =
      ReadTextFromFile fsReadOnly "notes.md".data ∧
    (OpenMarkdownAssetLink fsReadOnly true true notesAsset bindingHello
        "notes.md".data).binding.text =
      ReadTextFromFile fsReadOnly "notes.md".data ∧
    (commitEdit fsReadOnly notesAsset bindingHello "edited".data).1.text =
      "edited".data :=
  c7_open_refreshes_text_mirror fsReadOnly true true notesAsset
    bindingHello "notes.md".data notesAsset bindingHello "edited".data rfl

/-- C8: `CanWriteToFile` decides writability by read-only queries: false on
the empty path; for an existing file, true iff the file is not read-only;
for a nonexistent file, true iff the directory part is non-empty, exists,
and is not read-only. -/
theorem c8_can_write_to_file_cases (fs : FS) (p : Str) :
    CanWriteToFile fs p = true ↔
      p ≠ [] ∧
        ((fs.fileExists p = true ∧ fs.isReadOnly p = false) ∨
         (fs.fileExists p = false ∧ GetPath p ≠ [] ∧
          fs.dirExists (GetPath p) = true ∧
          fs.isReadOnly (GetPath p) = false)) := by
  unfold CanWriteToFile IsFileReadOnly
  rcases p with - | ⟨c, cs⟩
  · simp
  · cases hex : fs.fileExists (c :: cs)
    · cases hd : GetPath (c :: cs) <;>
        simp_all [Bool.and_eq_true, Bool.not_eq_true']
    · simp_all [Bool.not_eq_true']

/-- C9: the `OnSetText` lambda attempts a file write only when the open
asset is a link asset with a non-empty URL not containing `"://"`; in every
other case (plain asset, empty URL, remote URL) it updates only the
in-memory text and dirty flag and has no file-system effects. -/
theorem c9_write_only_for_local_link (fs : FS) (a : AssetState)
    (b : Binding) :
    ((OnSetTextLambda fs a b).2.writes ≠ [] →
      a.isLink = true ∧ a.url ≠ [] ∧
        containsSub a.url "://".data = false) ∧
    (IsCurrentFileALocalFile a = false →
      (OnSetTextLambda fs a b).1 = { a with dirty := true, text := b.text } ∧
      (OnSetTextLambda fs a b).2 = noEffects) := by
  constructor
  · intro hw
    cases hloc : IsCurrentFileALocalFile a
    · have h0 : (OnSetTextLambda fs a b).2.writes = [] := by
        rw [OnSetTextLambda_snd_nonlocal fs a b hloc]
        rfl
      exact absurd h0 hw
    · exact (isLocal_iff a).mp hloc
  · intro hloc
    exact ⟨OnSetTextLambda_fst fs a b,
      OnSetTextLambda_snd_nonlocal fs a b hloc⟩

/-- C9 witness: a writable local link does write (so the premise of the
first part is realizable), and a plain asset's edit has no file-system
effects. -/
theorem c9_witness :
    (notesAsset.isLink = true ∧ notesAsset.url ≠ [] ∧
      containsSub notesAsset.url "://".data = false) ∧
    ((OnSetTextLambda fsWritable plainAsset bindingEdited).1 =
        { plainAsset with dirty := true, text := bindingEdited.text } ∧
     (OnSetTextLambda fsWritable plainAsset bindingEdited).2 = noEffects) :=
  ⟨(c9_write_only_for_local_link fsWritable notesAsset bindingEdited).1
      (by decide),
   (c9_write_only_for_local_link fsWritable plainAsset bindingEdited).2
      (by decide)⟩

/-- C10: `FactoryCreateNew` returns a fresh `UMarkdownLinkAsset` whose URL
equals the factory's URL property when that is non-empty and stays the
default empty string otherwise, and whose object flags contain every
requested flag plus `RF_Transactional` (bit 3). -/
theorem c10_factory_create_new (u : Str) (f : Nat) :
    (FactoryCreateNew u f).url = (if u.isEmpty then [] else u) ∧
    (FactoryCreateNew u f).text = [] ∧
    (∀ i, f.testBit i = true →
      (FactoryCreateNew u f).flags.testBit i = true) ∧
    (FactoryCreateNew u f).flags.testBit 3 = true := by
  have hflags : (FactoryCreateNew u f).flags = f ||| 8 := by
    unfold FactoryCreateNew RF_Transactional
    split <;> rfl
  refine ⟨?_, ?_, ?_, ?_⟩
  · unfold FactoryCreateNew
    split <;> next h => simp [h]
  · unfold FactoryCreateNew
    split <;> rfl
  · intro i hi
    rw [hflags, Nat.testBit_lor, hi]
    rfl
  · rw [hflags, Nat.testBit_lor]
    simp [show Nat.testBit 8 3 = true from by decide]

/-- C10 witness: the flag-inclusion part at concrete inputs. -/
theorem c10_witness :
    (FactoryCreateNew "a.md".data 5).flags.testBit 0 = true :=
  (c10_factory_create_new "a.md".data 5).2.2.1 0 (by decide)
